import Mathlib

/-!
Verification of the Geo-Moon-Deadline-Tracker reminder engine.

This file shallowly embeds the reminder dispatch engine of the repository
(`src/deadlines/tasks.py`, `src/core/models.py`,
`src/core/management/commands/import_deadlines.py`) in Lean 4 and proves the
spec's claims about it.

Modelling conventions:
* Timestamps (Django `DateTimeField`) are modelled as integers counting
  minutes; `minutesOfDate` converts a Gregorian calendar date to that scale so
  the spec's concrete date scenarios can be checked exactly.
* The database is a `Store`.  Foreign keys are total (Django's non-nullable
  `ForeignKey` columns with `select_related` always resolve), so the
  event-of-reminder and user-of-event joins are total functions in the store.
* The mail transport (`django.core.mail.send_mail` with
  `fail_silently=False`) is a function `Mail → Except String Unit`; a
  `.error` result models the raised exception.
* String rendering of dates (`astimezone`/`strftime`/`isoformat`) is
  abstracted to `toString` of the minute count; no claim constrains the
  textual date format.
-/

set_option maxRecDepth 4000000

namespace DeadlineTracker

/-- A Django auth user: only the fields the engine reads.  An absent email
address is the empty string, as in Django's `CharField`/`EmailField` default,
and `not user.email` in Python is exactly the emptiness test. -/
structure User where
  id : Nat
  email : String
  username : String
deriving DecidableEq, Repr

/-- `core.models.Event`: the fields the reminder engine reads. -/
structure Event where
  id : Nat
  userId : Nat
  title : String
  description : String
  due_at : Int
deriving DecidableEq, Repr

/-- `core.models.Reminder`: id, owning event, channel, absolute send time,
sent flag and nullable sent timestamp. -/
structure Reminder where
  id : Nat
  eventId : Nat
  channel : String
  send_at : Int
  is_sent : Bool
  sent_at : Option Int
deriving DecidableEq, Repr

/-- The persistence store.  `eventOf` and `userOf` resolve foreign keys
(total, mirroring referential integrity of the non-nullable FK columns);
`labelNamesOf` resolves the `Event.labels` many-to-many join to the label
names; `reminders` is the reminder table. -/
structure Store where
  eventOf : Nat → Event
  userOf : Nat → User
  labelNamesOf : Nat → List String
  reminders : List Reminder

/-- The batch cap in `send_due_reminders`: `order_by("send_at")[:200]`. -/
def BATCH_CAP : Nat := 200

/-- `settings.DEFAULT_FROM_EMAIL` (default value). -/
def DEFAULT_FROM_EMAIL : String := "deadlines@example.com"

/-- The filter `is_sent=False, send_at__lte=now` of the scanner query. -/
def dueUnsent (now : Int) (rs : List Reminder) : List Reminder :=
  rs.filter fun r => !r.is_sent && decide (r.send_at ≤ now)

/-- Insert a reminder into a list sorted ascending by `send_at`, after all
entries with an equal key (so the sort below is stable). -/
def insertBySendAt (r : Reminder) : List Reminder → List Reminder
  | [] => [r]
  | x :: xs => if r.send_at < x.send_at then r :: x :: xs else x :: insertBySendAt r xs

/-- Stable sort ascending by `send_at`: the `order_by("send_at")` clause. -/
def sortBySendAt : List Reminder → List Reminder
  | [] => []
  | x :: xs => insertBySendAt x (sortBySendAt xs)

/-- The scanner query of `send_due_reminders`:
`Reminder.objects.filter(is_sent=False, send_at__lte=now).order_by("send_at")[:200]`. -/
def scanDue (now : Int) (rs : List Reminder) : List Reminder :=
  (sortBySendAt (dueUnsent now rs)).take BATCH_CAP

/-- An email message as passed to `send_mail`. -/
structure Mail where
  subject : String
  body : String
  fromAddr : String
  toAddrs : List String
deriving DecidableEq, Repr

/-- The mail transport: `send_mail(..., fail_silently=False)`; an `.error`
result is the raised exception. -/
def Transport : Type := Mail → Except String Unit

/-- The always-succeeding transport (normal operation). -/
def okTransport : Transport := fun _ => .ok ()

/-- Owner email lookup for a reminder: `reminder.event.user.email`. -/
def emailOf (s : Store) (r : Reminder) : String :=
  (s.userOf (s.eventOf r.eventId).userId).email

/-- Render the subject line of the reminder email (date formatting
abstracted). -/
def buildSubject (ev : Event) : String :=
  "Reminder: " ++ ev.title ++ " (due " ++ toString ev.due_at ++ ")"

/-- Render the body: description (or the placeholder), optional labels line,
due timestamp, owner identifier, joined by blank lines. -/
def buildBody (s : Store) (ev : Event) (u : User) : String :=
  let labels := String.intercalate ", " (s.labelNamesOf ev.id)
  let line1 := if ev.description = "" then "No description." else ev.description
  let labelLines := if labels = "" then [] else ["Labels: " ++ labels]
  String.intercalate "\n\n"
    ([line1] ++ labelLines ++ ["Due: " ++ toString ev.due_at, "Event owner: " ++ u.username])

/-- The full message handed to `send_mail` for a reminder. -/
def buildMail (s : Store) (r : Reminder) : Mail :=
  let ev := s.eventOf r.eventId
  let u := s.userOf ev.userId
  { subject := buildSubject ev
    body := buildBody s ev u
    fromAddr := DEFAULT_FROM_EMAIL
    toAddrs := [u.email] }

/-- `reminder.is_sent = True; reminder.sent_at = now; reminder.save(...)`:
update the single row with this id in the reminder table. -/
def markSent (now : Int) (rid : Nat) (rs : List Reminder) : List Reminder :=
  rs.map fun r =>
    if r.id = rid then { r with is_sent := true, sent_at := some now } else r

/-- Outcome of the loop body of `send_due_reminders` for one reminder. -/
inductive StepOutcome where
  | skipped
  | sent (s : Store)
  | failed (e : String)

/-- One iteration of the dispatch loop: skip when the owner has no email
address; otherwise send the mail and on success persist the sent mark
immediately; a transport error is the raised exception. -/
def deliverOne (transport : Transport) (now : Int) (s : Store) (r : Reminder) : StepOutcome :=
  if emailOf s r = "" then .skipped
  else
    match transport (buildMail s r) with
    | .ok _ => .sent { s with reminders := markSent now r.id s.reminders }
    | .error e => .failed e

/-- Result of one dispatch invocation: the store after the run, the count of
reminders successfully sent, and the propagated transport error if the run
was aborted. -/
structure DispatchResult where
  store : Store
  sent_count : Nat
  error : Option String

/-- The dispatch loop over the scanned batch, processing strictly
sequentially; a transport failure aborts the remainder of the batch and
propagates, leaving the store as already persisted. -/
def runBatch (transport : Transport) (now : Int) : Store → Nat → List Reminder → DispatchResult
  | s, cnt, [] => ⟨s, cnt, none⟩
  | s, cnt, r :: rest =>
    match deliverOne transport now s r with
    | .skipped => runBatch transport now s cnt rest
    | .sent s' => runBatch transport now s' (cnt + 1) rest
    | .failed e => ⟨s, cnt, some e⟩

/-- `deadlines.tasks.send_due_reminders`: scan the due unsent reminders
(capped, sorted) at time `now` and dispatch them. -/
def send_due_reminders (transport : Transport) (now : Int) (s : Store) : DispatchResult :=
  runBatch transport now s 0 (scanDue now s.reminders)

/-! ### Calendar arithmetic

The import command stores `due_at` as a timezone-aware datetime and computes
reminder times with `timedelta(minutes=...)`.  We model datetimes as minute
counts; `daysFromCivil` is the standard civil-calendar day count (days since
1970-01-01), so concrete dates from the spec's scenarios evaluate exactly. -/

/-- Days since 1970-01-01 of the Gregorian date `y-m-d`. -/
def daysFromCivil (y m d : Int) : Int :=
  let yAdj := if m ≤ 2 then y - 1 else y
  let era := (if 0 ≤ yAdj then yAdj else yAdj - 399) / 400
  let yoe := yAdj - era * 400
  let mp := (m + 9) % 12
  let doy := (153 * mp + 2) / 5 + d - 1
  let doe := yoe * 365 + yoe / 4 - yoe / 100 + doy
  era * 146097 + doe - 719468

/-- Minute count of the datetime `y-m-d h:mi`. -/
def minutesOfDate (y m d h mi : Int) : Int :=
  daysFromCivil y m d * 1440 + h * 60 + mi

/-! ### The CSV import command (`core/management/commands/import_deadlines.py`) -/

/-- One CSV row as read by `csv.DictReader` (missing cells are `""`,
matching `row.get(...) or ""`). -/
structure Row where
  title : String
  description : String
  due_at : String
  reminders_minutes_before : String
  labels : String
deriving DecidableEq, Repr

/-- Whitespace stripping from the front of a character list.  (The model
works on character lists because `String.trim`/`String.splitOn` are
implemented with non-structural loops that the kernel cannot evaluate.) -/
def dropSpaces : List Char → List Char
  | [] => []
  | c :: cs => if c.isWhitespace then dropSpaces cs else c :: cs

/-- Python `str.strip()`: whitespace removed from both ends. -/
def trimChars (cs : List Char) : List Char :=
  (dropSpaces (dropSpaces cs).reverse).reverse

/-- Python `str.split(sep)` for a one-character separator. -/
def splitOnChar (sep : Char) : List Char → List (List Char)
  | [] => [[]]
  | c :: cs =>
    if c = sep then [] :: splitOnChar sep cs
    else
      match splitOnChar sep cs with
      | [] => [[c]]
      | g :: gs => (c :: g) :: gs

/-- Numeric value of a nonempty all-digit character list. -/
def digitsToNat? (cs : List Char) : Option Nat :=
  if cs = [] then none
  else
    cs.foldl
      (fun acc c => match acc with
        | none => none
        | some a => if c.isDigit then some (a * 10 + (c.toNat - 48)) else none)
      (some 0)

/-- Python `int(...)` on a stripped token: optional sign, then digits;
anything else raises `ValueError`. -/
def parseInt? (cs : List Char) : Option Int :=
  match cs with
  | '-' :: rest => (digitsToNat? rest).map fun n => -(n : Int)
  | '+' :: rest => (digitsToNat? rest).map fun n => (n : Int)
  | l => (digitsToNat? l).map fun n => (n : Int)

/-- Parsing of the documented `YYYY-MM-DD HH:MM` due-date format (the source
delegates to `dateutil.parser`; the CSV contract fixes this format, and this
model accepts exactly it, so a non-date string fails). -/
def parseDue? (cs : List Char) : Option Int :=
  match cs with
  | [y1, y2, y3, y4, '-', m1, m2, '-', d1, d2, ' ', h1, h2, ':', n1, n2] =>
    if ([y1, y2, y3, y4, m1, m2, d1, d2, h1, h2, n1, n2].all Char.isDigit) then
      let num := fun (cs : List Char) => cs.foldl (fun (a : Nat) c => a * 10 + (c.toNat - 48)) 0
      let y := num [y1, y2, y3, y4]
      let mo := num [m1, m2]
      let d := num [d1, d2]
      let h := num [h1, h2]
      let mi := num [n1, n2]
      if 1 ≤ mo ∧ mo ≤ 12 ∧ 1 ≤ d ∧ d ≤ 31 ∧ h ≤ 23 ∧ mi ≤ 59 then
        some (minutesOfDate (y : Int) (mo : Int) (d : Int) (h : Int) (mi : Int))
      else none
    else none
  | _ => none

/-- The comprehension `[int(v.strip()) for v in raw.split(",") if v.strip()]`;
`none` models the `ValueError` caught per row. -/
def parseOffsets? (raw : List Char) : Option (List Int) :=
  ((((splitOnChar ',' raw).map trimChars).filter fun p => p ≠ []).mapM parseInt?)

/-- A successfully validated row, holding the data staged in
`events_to_create` before the commit phase. -/
structure ParsedRow where
  title : String
  description : String
  due : Int
  offsets : List Int
  labelNames : List String
deriving DecidableEq, Repr

/-- Validation of one CSV row (index `idx` counts from 2, after the header):
missing title, unparsable `due_at`, then unparsable offsets each append one
error and skip the row, exactly as the `continue` chain in `handle`. -/
def parseRow (idx : Nat) (row : Row) : Except String ParsedRow :=
  let title := trimChars row.title.toList
  if title = [] then .error ("Row " ++ toString idx ++ ": missing title")
  else
    let dueRaw := trimChars row.due_at.toList
    match parseDue? dueRaw with
    | none => .error ("Row " ++ toString idx ++ ": invalid due_at " ++ String.mk dueRaw)
    | some due =>
      let offsetsRaw := trimChars row.reminders_minutes_before.toList
      match parseOffsets? offsetsRaw with
      | none =>
        .error ("Row " ++ toString idx ++ ": invalid reminders_minutes_before " ++
          String.mk offsetsRaw)
      | some offsets =>
        let labelsRaw := trimChars row.labels.toList
        let labelNames := ((splitOnChar ';' labelsRaw).map trimChars).filter fun p => p ≠ []
        .ok ⟨String.mk title, String.mk (trimChars row.description.toList), due, offsets,
          labelNames.map String.mk⟩

/-- The reminders created for one imported event:
`Reminder.objects.create(event=event, channel=CHANNEL_EMAIL,
send_at=due - timedelta(minutes=minutes))` for each offset.  Row ids are
assigned by the database; the model leaves them 0, as no claim depends on
them. -/
def remindersForEvent (eventId : Nat) (due : Int) (offsets : List Int) : List Reminder :=
  offsets.map fun minutes =>
    { id := 0, eventId := eventId, channel := "email", send_at := due - minutes,
      is_sent := false, sent_at := none }

/-- Outcome of the import command: reported errors, records created, and the
exit status (`ok = false` models the `CommandError`).  `labelNamesUsed`
collects the names passed to `get_or_create`. -/
structure ImportOutcome where
  errors : List String
  created : Nat
  events : List Event
  newReminders : List Reminder
  labelNamesUsed : List String
  ok : Bool

/-- `Command.handle`: parse and validate every row first, collecting all
per-row errors; if any error was collected, report them all and abort with
no records created; otherwise create one event per row (ids assigned
sequentially), its labels, and one reminder per offset. -/
def importDeadlines (userId : Nat) (rows : List Row) : ImportOutcome :=
  let parsed := rows.enum.map fun p => parseRow (p.fst + 2) p.snd
  let errs := parsed.foldr
    (fun r acc => match r with | .error e => e :: acc | .ok _ => acc) []
  if errs = [] then
    let good := parsed.foldr
      (fun r acc => match r with | .ok p => p :: acc | .error _ => acc) []
    let events := good.enum.map fun p =>
      ({ id := p.fst + 1, userId := userId, title := p.snd.title,
         description := p.snd.description, due_at := p.snd.due } : Event)
    let rems := (good.enum.map fun p => remindersForEvent (p.fst + 1) p.snd.due p.snd.offsets).flatten
    let labelNames := (good.map fun p => p.labelNames).flatten
    { errors := [], created := events.length, events := events,
      newReminders := rems, labelNamesUsed := labelNames, ok := true }
  else
    { errors := errs, created := 0, events := [], newReminders := [],
      labelNamesUsed := [], ok := false }

/-! ### Helper notions and lemmas -/

/-- Sorted ascending by `send_at`. -/
def SortedBySendAt (l : List Reminder) : Prop :=
  l.Pairwise fun a b => a.send_at ≤ b.send_at

/-- The sent mark of `send_due_reminders`. -/
def mark (now : Int) (r : Reminder) : Reminder :=
  { r with is_sent := true, sent_at := some now }

/-- How one dispatch invocation at time `now` may change a persisted
reminder: untouched, or marked sent. -/
def stepRel (now : Int) (a b : Reminder) : Prop :=
  b = a ∨ b = mark now a

/-- All rows with this id in the table are marked sent at `now`. -/
def markedAll (now : Int) (rid : Nat) (rs : List Reminder) : Prop :=
  ∀ x ∈ rs, x.id = rid → x.is_sent = true ∧ x.sent_at = some now

/-- The spec's reminder-state invariant: sent flag set iff sent timestamp
non-null. -/
def ReminderInv (r : Reminder) : Prop := r.is_sent = true ↔ r.sent_at ≠ none

/-! Concrete fixtures used in witnesses and counterexamples. -/

/-- A due, unsent email reminder with id `i`, owning event `i`, send time `t`. -/
def wRem (i : Nat) (t : Int) : Reminder :=
  { id := i, eventId := i, channel := "email", send_at := t, is_sent := false, sent_at := none }

/-- A store where event `i` belongs to user `i` and user `i` has the email
address `emails i`. -/
def wStore (emails : Nat → String) (rs : List Reminder) : Store :=
  { eventOf := fun i => { id := i, userId := i, title := "Report", description := "", due_at := 0 }
    userOf := fun i => { id := i, email := emails i, username := "user" }
    labelNamesOf := fun _ => []
    reminders := rs }

/-- A transport that raises for one recipient address and delivers for every
other. -/
def failTransport (bad : String) : Transport := fun m =>
  if bad ∈ m.toAddrs then .error "SMTPException" else .ok ()

/-- One due reminder whose owner has no email address. -/
def wStoreNoEmail : Store := wStore (fun _ => "") [wRem 1 0]

/-- Three due reminders; the second one's owner address makes the transport
raise. -/
def sW3 : Store :=
  wStore (fun i => if i = 2 then "bad@example.com" else "ok@example.com")
    [wRem 1 1, wRem 2 2, wRem 3 3]

/-- Two due reminders at the same time, one sendable, one without address. -/
def sW6 : Store := wStore (fun i => if i = 1 then "a@b" else "") [wRem 1 0, wRem 2 0]

/-- One reminder due five minutes ago with a sendable owner. -/
def sW8 : Store := wStore (fun _ => "user@example.com") [wRem 1 (-5)]

/-- 201 sendable reminders simultaneously due: one more than the batch cap. -/
def cexStore : Store :=
  wStore (fun _ => "user@example.com") ((List.range 201).map fun i => wRem i 0)

/-- 202 due reminders: the earliest one's owner has no address, the other 201
are sendable. -/
def capStore : Store :=
  wStore (fun i => if i = 0 then "" else "user@example.com")
    ((List.range 202).map fun i => wRem i (if i = 0 then -1 else 0))

/-- A valid CSV row. -/
def wRowGood : Row := ⟨"Pay rent", "", "2024-01-10 09:00", "1440,60", "Home"⟩

/-- A CSV row with an unparsable due date. -/
def wRowBadDue : Row := ⟨"Vacancy", "", "not-a-date", "", ""⟩

theorem stepRel_refl (now : Int) (a : Reminder) : stepRel now a a := Or.inl rfl

theorem mark_mark (now : Int) (a : Reminder) : mark now (mark now a) = mark now a := rfl

theorem stepRel_trans {now : Int} {a b c : Reminder}
    (h1 : stepRel now a b) (h2 : stepRel now b c) : stepRel now a c := by
  rcases h1 with h1 | h1 <;> rcases h2 with h2 | h2 <;>
    simp [stepRel, h1, h2, mark_mark]

theorem stepRel_id {now : Int} {a b : Reminder} (h : stepRel now a b) : b.id = a.id := by
  rcases h with h | h <;> simp [h, mark]

theorem stepRel_send_at {now : Int} {a b : Reminder} (h : stepRel now a b) :
    b.send_at = a.send_at := by
  rcases h with h | h <;> simp [h, mark]

theorem stepRel_sent_mono {now : Int} {a b : Reminder} (h : stepRel now a b)
    (ha : a.is_sent = true) : b.is_sent = true := by
  rcases h with h | h <;> simp [h, mark, ha]

theorem stepRel_of_unsent {now : Int} {a b : Reminder} (h : stepRel now a b)
    (hb : b.is_sent = false) : b = a := by
  rcases h with h | h
  · exact h
  · simp [h, mark] at hb

theorem forall₂_stepRel_refl (now : Int) (l : List Reminder) :
    List.Forall₂ (stepRel now) l l := by
  induction l with
  | nil => exact .nil
  | cons x xs ih => exact .cons (stepRel_refl now x) ih

theorem forall₂_stepRel_trans {now : Int} {l1 l2 l3 : List Reminder}
    (h1 : List.Forall₂ (stepRel now) l1 l2) (h2 : List.Forall₂ (stepRel now) l2 l3) :
    List.Forall₂ (stepRel now) l1 l3 := by
  induction h1 generalizing l3 with
  | nil => cases h2; exact .nil
  | cons hab h ih =>
    cases h2 with
    | cons hbc h2t => exact .cons (stepRel_trans hab hbc) (ih h2t)

theorem forall₂_mem_right {R : Reminder → Reminder → Prop} {l1 l2 : List Reminder}
    (h : List.Forall₂ R l1 l2) {b : Reminder} (hb : b ∈ l2) :
    ∃ a ∈ l1, R a b := by
  induction h with
  | nil => cases hb
  | cons hab h ih =>
    rcases List.mem_cons.1 hb with rfl | hb2
    · exact ⟨_, List.mem_cons_self .., hab⟩
    · rcases ih hb2 with ⟨a, ha, hr⟩
      exact ⟨a, List.mem_cons_of_mem _ ha, hr⟩

/-! Lemmas about the scanner. -/

theorem mem_dueUnsent {now : Int} {rs : List Reminder} {r : Reminder} :
    r ∈ dueUnsent now rs ↔ r ∈ rs ∧ r.is_sent = false ∧ r.send_at ≤ now := by
  simp [dueUnsent, List.mem_filter, Bool.not_eq_true']

theorem mem_insertBySendAt {r x : Reminder} {l : List Reminder} :
    x ∈ insertBySendAt r l ↔ x = r ∨ x ∈ l := by
  induction l with
  | nil => simp [insertBySendAt]
  | cons y ys ih =>
    simp only [insertBySendAt]
    split
    · simp [List.mem_cons]
    · simp [List.mem_cons, ih]
      tauto

theorem insertBySendAt_perm (r : Reminder) (l : List Reminder) :
    List.Perm (insertBySendAt r l) (r :: l) := by
  induction l with
  | nil => simp [insertBySendAt]
  | cons y ys ih =>
    simp only [insertBySendAt]
    split
    · exact List.Perm.refl _
    · exact List.Perm.trans (List.Perm.cons y ih) (List.Perm.swap r y ys)

theorem sortBySendAt_perm (l : List Reminder) : List.Perm (sortBySendAt l) l := by
  induction l with
  | nil => exact List.Perm.refl _
  | cons x xs ih =>
    exact List.Perm.trans (insertBySendAt_perm x (sortBySendAt xs)) (List.Perm.cons x ih)

theorem mem_sortBySendAt {x : Reminder} {l : List Reminder} :
    x ∈ sortBySendAt l ↔ x ∈ l :=
  (sortBySendAt_perm l).mem_iff

theorem length_sortBySendAt (l : List Reminder) :
    (sortBySendAt l).length = l.length :=
  (sortBySendAt_perm l).length_eq

theorem sorted_insertBySendAt {r : Reminder} {l : List Reminder}
    (h : SortedBySendAt l) : SortedBySendAt (insertBySendAt r l) := by
  induction l with
  | nil => simp [insertBySendAt, SortedBySendAt]
  | cons y ys ih =>
    simp only [insertBySendAt]
    rcases List.pairwise_cons.1 h with ⟨hy, hys⟩
    split
    · rename_i hlt
      refine List.pairwise_cons.2 ⟨?_, h⟩
      intro b hb
      rcases List.mem_cons.1 hb with rfl | hb2
      · exact le_of_lt hlt
      · exact le_trans (le_of_lt hlt) (hy b hb2)
    · rename_i hge
      refine List.pairwise_cons.2 ⟨?_, ih hys⟩
      intro b hb
      rcases mem_insertBySendAt.1 hb with rfl | hb2
      · exact le_of_not_lt hge
      · exact hy b hb2

theorem sorted_sortBySendAt (l : List Reminder) : SortedBySendAt (sortBySendAt l) := by
  induction l with
  | nil => exact List.Pairwise.nil
  | cons x xs ih => exact sorted_insertBySendAt ih

theorem scanDue_length_le (now : Int) (rs : List Reminder) :
    (scanDue now rs).length ≤ BATCH_CAP := by
  simp [scanDue, List.length_take]

theorem scanDue_subset_dueUnsent {now : Int} {rs : List Reminder} {r : Reminder}
    (h : r ∈ scanDue now rs) : r ∈ dueUnsent now rs :=
  mem_sortBySendAt.1 (List.take_subset _ _ h)

theorem scanDue_sorted (now : Int) (rs : List Reminder) :
    SortedBySendAt (scanDue now rs) :=
  List.Pairwise.sublist (List.take_sublist _ _) (sorted_sortBySendAt _)

theorem scanDue_full (now : Int) (rs : List Reminder)
    (h : (dueUnsent now rs).length ≤ BATCH_CAP) :
    scanDue now rs = sortBySendAt (dueUnsent now rs) := by
  apply List.take_of_length_le
  rw [length_sortBySendAt]
  exact h

/-! Lemmas about the dispatch loop. -/

theorem deliverOne_skipped_iff {t : Transport} {now : Int} {s : Store} {r : Reminder} :
    deliverOne t now s r = .skipped ↔ emailOf s r = "" := by
  unfold deliverOne
  split
  · simp [*]
  · rename_i hne
    split <;> simp [hne]

theorem deliverOne_sent_inv {t : Transport} {now : Int} {s : Store} {r : Reminder} {s' : Store}
    (h : deliverOne t now s r = .sent s') :
    s' = { s with reminders := markSent now r.id s.reminders } := by
  unfold deliverOne at h
  split at h
  · cases h
  · split at h
    · cases h; rfl
    · cases h

theorem deliverOne_sent_email {t : Transport} {now : Int} {s : Store} {r : Reminder} {s' : Store}
    (h : deliverOne t now s r = .sent s') : emailOf s r ≠ "" := by
  intro he
  rw [deliverOne_skipped_iff.2 he] at h
  cases h

theorem runBatch_eventOf (t : Transport) (now : Int) (s : Store) (cnt : Nat)
    (l : List Reminder) : (runBatch t now s cnt l).store.eventOf = s.eventOf := by
  induction l generalizing s cnt with
  | nil => rfl
  | cons r rest ih =>
    rcases hdel : deliverOne t now s r with _ | s' | e
    · simp only [runBatch, hdel]
      exact ih s cnt
    · have hs' := deliverOne_sent_inv hdel
      subst hs'
      simp only [runBatch, hdel]
      exact ih _ (cnt + 1)
    · simp only [runBatch, hdel]

theorem runBatch_userOf (t : Transport) (now : Int) (s : Store) (cnt : Nat)
    (l : List Reminder) : (runBatch t now s cnt l).store.userOf = s.userOf := by
  induction l generalizing s cnt with
  | nil => rfl
  | cons r rest ih =>
    rcases hdel : deliverOne t now s r with _ | s' | e
    · simp only [runBatch, hdel]
      exact ih s cnt
    · have hs' := deliverOne_sent_inv hdel
      subst hs'
      simp only [runBatch, hdel]
      exact ih _ (cnt + 1)
    · simp only [runBatch, hdel]

theorem runBatch_emailOf (t : Transport) (now : Int) (s : Store) (cnt : Nat)
    (l : List Reminder) (r : Reminder) :
    emailOf (runBatch t now s cnt l).store r = emailOf s r := by
  unfold emailOf
  rw [runBatch_eventOf, runBatch_userOf]

theorem markSent_forall₂ (now : Int) (rid : Nat) (rs : List Reminder) :
    List.Forall₂ (stepRel now) rs (markSent now rid rs) := by
  induction rs with
  | nil => exact .nil
  | cons x xs ih =>
    simp only [markSent, List.map_cons]
    refine .cons ?_ ih
    by_cases h : x.id = rid
    · exact Or.inr (by simp [h, mark])
    · exact Or.inl (by simp [h])

theorem runBatch_forall₂ (t : Transport) (now : Int) (s : Store) (cnt : Nat)
    (l : List Reminder) :
    List.Forall₂ (stepRel now) s.reminders (runBatch t now s cnt l).store.reminders := by
  induction l generalizing s cnt with
  | nil => exact forall₂_stepRel_refl now s.reminders
  | cons r rest ih =>
    rcases hdel : deliverOne t now s r with _ | s' | e
    · simp only [runBatch, hdel]
      exact ih s cnt
    · have hs' := deliverOne_sent_inv hdel
      subst hs'
      simp only [runBatch, hdel]
      exact forall₂_stepRel_trans (markSent_forall₂ now r.id s.reminders)
        (ih { s with reminders := markSent now r.id s.reminders } (cnt + 1))
    · simp only [runBatch, hdel]
      exact forall₂_stepRel_refl now s.reminders

theorem runBatch_append (t : Transport) (now : Int) (s : Store) (cnt : Nat)
    (l1 l2 : List Reminder) (h : (runBatch t now s cnt l1).error = none) :
    runBatch t now s cnt (l1 ++ l2) =
      runBatch t now (runBatch t now s cnt l1).store (runBatch t now s cnt l1).sent_count l2 := by
  induction l1 generalizing s cnt with
  | nil => rfl
  | cons r rest ih =>
    rcases hdel : deliverOne t now s r with _ | s' | e
    · simp only [List.cons_append, runBatch, hdel] at h ⊢
      exact ih s cnt h
    · simp only [List.cons_append, runBatch, hdel] at h ⊢
      exact ih s' (cnt + 1) h
    · simp only [runBatch, hdel] at h
      cases h

theorem runBatch_all_skipped (t : Transport) (now : Int) (s : Store) (cnt : Nat)
    (l : List Reminder) (h : ∀ r ∈ l, emailOf s r = "") :
    runBatch t now s cnt l = ⟨s, cnt, none⟩ := by
  induction l with
  | nil => rfl
  | cons r rest ih =>
    have hr : deliverOne t now s r = .skipped :=
      deliverOne_skipped_iff.2 (h r (List.mem_cons_self ..))
    simp only [runBatch, hr]
    exact ih fun x hx => h x (List.mem_cons_of_mem _ hx)

theorem runBatch_count_le (t : Transport) (now : Int) (s : Store) (cnt : Nat)
    (l : List Reminder) : (runBatch t now s cnt l).sent_count ≤ cnt + l.length := by
  induction l generalizing s cnt with
  | nil => simp [runBatch]
  | cons r rest ih =>
    rcases hdel : deliverOne t now s r with _ | s' | e
    · simp only [runBatch, hdel, List.length_cons]
      exact le_trans (ih s cnt) (by omega)
    · simp only [runBatch, hdel, List.length_cons]
      exact le_trans (ih s' (cnt + 1)) (by omega)
    · simp only [runBatch, hdel, List.length_cons]
      omega

theorem deliverOne_okT_not_failed {now : Int} {s : Store} {r : Reminder} {e : String}
    (h : deliverOne okTransport now s r = .failed e) : False := by
  unfold deliverOne at h
  split at h
  · cases h
  · simp [okTransport] at h

theorem runBatch_okT_error (now : Int) (s : Store) (cnt : Nat) (l : List Reminder) :
    (runBatch okTransport now s cnt l).error = none := by
  induction l generalizing s cnt with
  | nil => rfl
  | cons r rest ih =>
    rcases hdel : deliverOne okTransport now s r with _ | s' | e
    · simp only [runBatch, hdel]
      exact ih s cnt
    · simp only [runBatch, hdel]
      exact ih s' (cnt + 1)
    · exact absurd hdel fun h => deliverOne_okT_not_failed h

theorem runBatch_okT_count (now : Int) (s : Store) (cnt : Nat) (l : List Reminder) :
    (runBatch okTransport now s cnt l).sent_count =
      cnt + (l.filter fun r => decide (emailOf s r ≠ "")).length := by
  induction l generalizing s cnt with
  | nil => simp [runBatch]
  | cons r rest ih =>
    rcases hdel : deliverOne okTransport now s r with _ | s' | e
    · have he : emailOf s r = "" := deliverOne_skipped_iff.1 hdel
      simp only [runBatch, hdel, List.filter_cons]
      rw [ih s cnt]
      simp [he]
    · have he : emailOf s r ≠ "" := deliverOne_sent_email hdel
      have hs' := deliverOne_sent_inv hdel
      subst hs'
      simp only [runBatch, hdel, List.filter_cons]
      rw [show ((runBatch okTransport now { s with reminders := markSent now r.id s.reminders }
            (cnt + 1) rest).sent_count)
          = cnt + 1 + (rest.filter fun x => decide (emailOf s x ≠ "")).length from ih _ (cnt + 1)]
      simp [he]
      omega
    · exact absurd hdel fun h => deliverOne_okT_not_failed h

theorem markSent_markedAll (now : Int) (rid : Nat) (rs : List Reminder) :
    markedAll now rid (markSent now rid rs) := by
  intro x hx hid
  rcases List.mem_map.1 hx with ⟨y, hy, rfl⟩
  by_cases h : y.id = rid
  · simp [h]
  · simp [h] at hid

theorem markedAll_mono {now : Int} {rid : Nat} {rs rs' : List Reminder}
    (hf : List.Forall₂ (stepRel now) rs rs') (h : markedAll now rid rs) :
    markedAll now rid rs' := by
  intro x hx hid
  rcases forall₂_mem_right hf hx with ⟨a, ha, hrel⟩
  have hida : a.id = rid := by rw [← stepRel_id hrel]; exact hid
  have hm := h a ha hida
  rcases hrel with rfl | rfl
  · exact hm
  · exact ⟨rfl, rfl⟩

theorem runBatch_covers (t : Transport) (now : Int) (s : Store) (cnt : Nat)
    (l : List Reminder) (h : (runBatch t now s cnt l).error = none) :
    ∀ r ∈ l, emailOf s r = "" ∨ markedAll now r.id (runBatch t now s cnt l).store.reminders := by
  induction l generalizing s cnt with
  | nil => intro r hr; cases hr
  | cons r0 rest ih =>
    rcases hdel : deliverOne t now s r0 with _ | s' | e
    · have he := deliverOne_skipped_iff.1 hdel
      simp only [runBatch, hdel] at h ⊢
      intro r hr
      rcases List.mem_cons.1 hr with rfl | hr2
      · exact Or.inl he
      · exact ih s cnt h r hr2
    · have hs' := deliverOne_sent_inv hdel
      subst hs'
      simp only [runBatch, hdel] at h ⊢
      intro r hr
      rcases List.mem_cons.1 hr with rfl | hr2
      · refine Or.inr (markedAll_mono (runBatch_forall₂ t now _ (cnt + 1) rest) ?_)
        exact markSent_markedAll now r.id s.reminders
      · exact ih _ (cnt + 1) h r hr2
    · simp only [runBatch, hdel] at h
      cases h

/-! ### Claim theorems -/

/-- C1: every dispatch invocation selects exactly the reminders with
`is_sent = false` and `send_at ≤ now`, ordered ascending by `send_at` and
capped at 200; when the due backlog reaches the cap, exactly 200 are
selected, they are the earliest by `send_at`, and the rest are not part of
the batch. -/
theorem scan_selects_due_unsent_sorted_capped (now : Int) (rs : List Reminder) :
    (scanDue now rs).length ≤ BATCH_CAP ∧
    (∀ r ∈ scanDue now rs, r ∈ rs ∧ r.is_sent = false ∧ r.send_at ≤ now) ∧
    SortedBySendAt (scanDue now rs) ∧
    ((dueUnsent now rs).length ≤ BATCH_CAP → (scanDue now rs).Perm (dueUnsent now rs)) ∧
    (BATCH_CAP ≤ (dueUnsent now rs).length → (scanDue now rs).length = BATCH_CAP) ∧
    (∀ a ∈ scanDue now rs, ∀ b ∈ (sortBySendAt (dueUnsent now rs)).drop BATCH_CAP,
      a.send_at ≤ b.send_at) := by
  refine ⟨scanDue_length_le now rs, ?_, scanDue_sorted now rs, ?_, ?_, ?_⟩
  · intro r hr
    exact mem_dueUnsent.1 (scanDue_subset_dueUnsent hr)
  · intro h
    rw [scanDue_full now rs h]
    exact sortBySendAt_perm _
  · intro h
    rw [scanDue, List.length_take, length_sortBySendAt]
    exact Nat.min_eq_left h
  · intro a ha b hb
    have hp : List.Pairwise (fun x y => x.send_at ≤ y.send_at)
        ((sortBySendAt (dueUnsent now rs)).take BATCH_CAP ++
          (sortBySendAt (dueUnsent now rs)).drop BATCH_CAP) := by
      rw [List.take_append_drop]
      exact sorted_sortBySendAt _
    exact (List.pairwise_append.1 hp).2.2 a ha b hb

/-- C1 witness: 250 reminders due simultaneously; the scan keeps exactly 200
and every kept reminder is due and unsent. -/
theorem scan_selects_witness :
    BATCH_CAP ≤ (dueUnsent 0 (List.replicate 250 (wRem 1 0))).length ∧
    (scanDue 0 (List.replicate 250 (wRem 1 0))).length = BATCH_CAP ∧
    (wRem 1 0 ∈ List.replicate 250 (wRem 1 0) ∧ (wRem 1 0).is_sent = false ∧
      (wRem 1 0).send_at ≤ 0) := by
  have h := scan_selects_due_unsent_sorted_capped 0 (List.replicate 250 (wRem 1 0))
  refine ⟨by decide, h.2.2.2.2.1 (by decide), h.2.1 (wRem 1 0) (by decide)⟩

/-- C2: a candidate reminder whose owner has no email address is skipped:
the loop body is a no-op for it (no mail, no mutation, no error, no count). -/
theorem skip_when_no_email (t : Transport) (now : Int) (s : Store) (cnt : Nat)
    (r : Reminder) (rest : List Reminder) (h : emailOf s r = "") :
    deliverOne t now s r = .skipped ∧
    runBatch t now s cnt (r :: rest) = runBatch t now s cnt rest := by
  have hs := (@deliverOne_skipped_iff t now s r).2 h
  exact ⟨hs, by simp only [runBatch, hs]⟩

/-- C2 witness: one due reminder, owner without address: dispatch returns
count 0 and the reminder is untouched. -/
theorem skip_when_no_email_witness :
    emailOf wStoreNoEmail (wRem 1 0) = "" ∧
    deliverOne okTransport 0 wStoreNoEmail (wRem 1 0) = .skipped ∧
    runBatch okTransport 0 wStoreNoEmail 0 [wRem 1 0] =
      runBatch okTransport 0 wStoreNoEmail 0 [] ∧
    (send_due_reminders okTransport 0 wStoreNoEmail).sent_count = 0 ∧
    (send_due_reminders okTransport 0 wStoreNoEmail).store.reminders = [wRem 1 0] ∧
    (send_due_reminders okTransport 0 wStoreNoEmail).error = none := by
  have h := skip_when_no_email okTransport 0 wStoreNoEmail 0 (wRem 1 0) [] rfl
  exact ⟨rfl, h.1, h.2, by decide, by decide, by decide⟩

/-- C4: importing a row with due timestamp `due` and offsets `offsets`
creates exactly one reminder per offset, with `send_at = due − offset`
minutes, channel email and `is_sent = false`; e.g. due 2024-01-10 09:00 with
offsets [1440, 60] yields send times 2024-01-09 09:00 and 2024-01-10 08:00. -/
theorem reminders_one_per_offset (eid : Nat) (due : Int) (offsets : List Int) :
    (remindersForEvent eid due offsets).length = offsets.length ∧
    (∀ i : Nat, (remindersForEvent eid due offsets)[i]? = (offsets[i]?).map fun o =>
      { id := 0, eventId := eid, channel := "email", send_at := due - o,
        is_sent := false, sent_at := none }) ∧
    remindersForEvent 7 (minutesOfDate 2024 1 10 9 0) [1440, 60] =
      [{ id := 0, eventId := 7, channel := "email",
         send_at := minutesOfDate 2024 1 9 9 0, is_sent := false, sent_at := none },
       { id := 0, eventId := 7, channel := "email",
         send_at := minutesOfDate 2024 1 10 8 0, is_sent := false, sent_at := none }] := by
  refine ⟨by simp [remindersForEvent], ?_, by decide⟩
  intro i
  simp [remindersForEvent]

/-- C5: reminders are created with `is_sent = false` and a null sent
timestamp; one dispatch invocation changes each stored reminder at most by
the single false-to-true transition that sets both fields together
(`stepRel`); that transition preserves the iff of flag and timestamp and
never reverts the flag. -/
theorem sent_flag_iff_timestamp_and_monotone :
    (∀ eid : Nat, ∀ due : Int, ∀ offsets : List Int, ∀ r ∈ remindersForEvent eid due offsets,
      r.is_sent = false ∧ r.sent_at = none) ∧
    (∀ t : Transport, ∀ now : Int, ∀ s : Store,
      List.Forall₂ (stepRel now) s.reminders (send_due_reminders t now s).store.reminders) ∧
    (∀ now : Int, ∀ a b : Reminder, stepRel now a b →
      (ReminderInv a → ReminderInv b) ∧ (a.is_sent = true → b.is_sent = true)) := by
  refine ⟨?_, ?_, ?_⟩
  · intro eid due offsets r hr
    rcases List.mem_map.1 hr with ⟨o, ho, rfl⟩
    exact ⟨rfl, rfl⟩
  · intro t now s
    exact runBatch_forall₂ t now s 0 _
  · intro now a b hrel
    refine ⟨?_, stepRel_sent_mono hrel⟩
    intro hinv
    rcases hrel with rfl | rfl
    · exact hinv
    · simp [ReminderInv, mark]

/-- C5 witness: a freshly imported reminder is unsent with null timestamp;
dispatch on a one-reminder store only applies the sent transition; the
transition keeps the invariant. -/
theorem sent_flag_witness :
    ((⟨0, 9, "email", -30, false, none⟩ : Reminder).is_sent = false ∧
      (⟨0, 9, "email", -30, false, none⟩ : Reminder).sent_at = none) ∧
    List.Forall₂ (stepRel 0) sW8.reminders
      (send_due_reminders okTransport 0 sW8).store.reminders ∧
    (ReminderInv (wRem 1 0) → ReminderInv (mark 0 (wRem 1 0))) ∧
    ((wRem 1 0).is_sent = true → (mark 0 (wRem 1 0)).is_sent = true) := by
  have h := sent_flag_iff_timestamp_and_monotone
  have h3 := h.2.2 0 (wRem 1 0) (mark 0 (wRem 1 0)) (Or.inr rfl)
  exact ⟨h.1 9 0 [30] ⟨0, 9, "email", -30, false, none⟩ (by decide),
    h.2.1 okTransport 0 sW8, h3.1, h3.2⟩

/-- Errors collected by the import command are exactly the per-row parse
errors. -/
theorem mem_collectErrors {parsed : List (Except String ParsedRow)} {e : String} :
    (e ∈ parsed.foldr (fun r acc => match r with | .error e2 => e2 :: acc | .ok _ => acc) []) ↔
    Except.error e ∈ parsed := by
  induction parsed with
  | nil => simp
  | cons x xs ih =>
    cases x with
    | error e2 => simp [ih]
    | ok p => simp [ih]

/-- C7: if any CSV row fails validation, the import command reports every
row error, exits with an error, and creates no events, reminders or labels. -/
theorem import_aborts_on_any_row_error (userId : Nat) (rows : List Row) (e : String)
    (h : Except.error e ∈ rows.enum.map fun p => parseRow (p.fst + 2) p.snd) :
    (importDeadlines userId rows).ok = false ∧
    (importDeadlines userId rows).created = 0 ∧
    (importDeadlines userId rows).events = [] ∧
    (importDeadlines userId rows).newReminders = [] ∧
    (importDeadlines userId rows).labelNamesUsed = [] ∧
    (∀ e2 : String, (Except.error e2 ∈ rows.enum.map fun p => parseRow (p.fst + 2) p.snd) →
      e2 ∈ (importDeadlines userId rows).errors) := by
  have hne : ((rows.enum.map fun p => parseRow (p.fst + 2) p.snd).foldr
      (fun r acc => match r with | .error e2 => e2 :: acc | .ok _ => acc) []) ≠ [] := by
    intro h0
    have := mem_collectErrors.2 h
    rw [h0] at this
    cases this
  simp only [importDeadlines, if_neg hne]
  exact ⟨trivial, trivial, trivial, trivial, trivial, fun e2 h2 => mem_collectErrors.2 h2⟩

/-- C7 witness: a two-row CSV whose second row has `due_at = "not-a-date"`:
the import aborts with zero records and reports the error for row 3. -/
theorem import_aborts_witness :
    (Except.error "Row 3: invalid due_at not-a-date" ∈
      ([wRowGood, wRowBadDue].enum.map fun p => parseRow (p.fst + 2) p.snd)) ∧
    (importDeadlines 1 [wRowGood, wRowBadDue]).ok = false ∧
    (importDeadlines 1 [wRowGood, wRowBadDue]).created = 0 ∧
    (importDeadlines 1 [wRowGood, wRowBadDue]).events = [] ∧
    (importDeadlines 1 [wRowGood, wRowBadDue]).newReminders = [] ∧
    ("Row 3: invalid due_at not-a-date" ∈ (importDeadlines 1 [wRowGood, wRowBadDue]).errors) := by
  have hpr : parseRow 3 wRowBadDue = Except.error "Row 3: invalid due_at not-a-date" := rfl
  have h : Except.error "Row 3: invalid due_at not-a-date" ∈
      ([wRowGood, wRowBadDue].enum.map fun p => parseRow (p.fst + 2) p.snd) := by
    rw [show ([wRowGood, wRowBadDue].enum.map fun p => parseRow (p.fst + 2) p.snd)
        = [parseRow 2 wRowGood, parseRow 3 wRowBadDue] from rfl, hpr]
    exact List.mem_cons_of_mem _ (List.mem_cons_self ..)
  have ht := import_aborts_on_any_row_error 1 [wRowGood, wRowBadDue]
    "Row 3: invalid due_at not-a-date" h
  exact ⟨h, ht.1, ht.2.1, ht.2.2.1, ht.2.2.2.1, ht.2.2.2.2.2 _ h⟩

/-- C8: with a transport that delivers, dispatch never errors, returns
exactly the number of scanned reminders whose owner has an address, and each
of those is persisted as sent with timestamp `now`. -/
theorem dispatch_success_contract (now : Int) (s : Store) :
    (send_due_reminders okTransport now s).error = none ∧
    (send_due_reminders okTransport now s).sent_count =
      ((scanDue now s.reminders).filter fun r => decide (emailOf s r ≠ "")).length ∧
    (∀ r ∈ scanDue now s.reminders, emailOf s r ≠ "" →
      markedAll now r.id (send_due_reminders okTransport now s).store.reminders) := by
  refine ⟨runBatch_okT_error now s 0 _, ?_, ?_⟩
  · have h := runBatch_okT_count now s 0 (scanDue now s.reminders)
    simpa [send_due_reminders] using h
  · intro r hr hne
    have hcov := runBatch_covers okTransport now s 0 (scanDue now s.reminders)
      (runBatch_okT_error now s 0 _) r hr
    rcases hcov with he | hm
    · exact absurd he hne
    · exact hm

/-- C8 witness: a reminder due five minutes ago with a sendable owner:
dispatch sends it, marks it sent with timestamp now, and returns count 1. -/
theorem dispatch_success_witness :
    (send_due_reminders okTransport 0 sW8).error = none ∧
    (send_due_reminders okTransport 0 sW8).sent_count = 1 ∧
    markedAll 0 1 (send_due_reminders okTransport 0 sW8).store.reminders ∧
    (send_due_reminders okTransport 0 sW8).store.reminders =
      [{ id := 1, eventId := 1, channel := "email", send_at := -5,
         is_sent := true, sent_at := some 0 }] := by
  have h := dispatch_success_contract 0 sW8
  exact ⟨h.1, h.2.1.trans (by decide), h.2.2 (wRem 1 (-5)) (by decide) (by decide), by decide⟩

/-- C3: a transport error while sending one reminder propagates out of the
invocation and aborts the rest of the batch; the store stays exactly as
persisted by the earlier iterations (no rollback), and those earlier
iterations changed reminders only by marking them sent. -/
theorem transport_failure_fail_fast (t : Transport) (now : Int) (s : Store)
    (pre : List Reminder) (r : Reminder) (rest : List Reminder) (e : String)
    (hscan : scanDue now s.reminders = pre ++ r :: rest)
    (hpre : (runBatch t now s 0 pre).error = none)
    (hfail : deliverOne t now (runBatch t now s 0 pre).store r = .failed e) :
    send_due_reminders t now s =
      ⟨(runBatch t now s 0 pre).store, (runBatch t now s 0 pre).sent_count, some e⟩ ∧
    List.Forall₂ (stepRel now) s.reminders (runBatch t now s 0 pre).store.reminders := by
  constructor
  · show runBatch t now s 0 (scanDue now s.reminders) = _
    rw [hscan, runBatch_append t now s 0 pre (r :: rest) hpre]
    simp only [runBatch, hfail]
  · exact runBatch_forall₂ t now s 0 pre

/-- C3 witness: three due reminders; the transport raises on the second.
The first stays marked sent with its timestamp, the error propagates, the
third is never processed and stays pending. -/
theorem transport_failure_witness :
    send_due_reminders (failTransport "bad@example.com") 10 sW3 =
      ⟨(runBatch (failTransport "bad@example.com") 10 sW3 0 [wRem 1 1]).store,
       (runBatch (failTransport "bad@example.com") 10 sW3 0 [wRem 1 1]).sent_count,
       some "SMTPException"⟩ ∧
    (send_due_reminders (failTransport "bad@example.com") 10 sW3).error = some "SMTPException" ∧
    (send_due_reminders (failTransport "bad@example.com") 10 sW3).sent_count = 1 ∧
    (send_due_reminders (failTransport "bad@example.com") 10 sW3).store.reminders =
      [mark 10 (wRem 1 1), wRem 2 2, wRem 3 3] := by
  have h := transport_failure_fail_fast (failTransport "bad@example.com") 10 sW3
    [wRem 1 1] (wRem 2 2) [wRem 3 3] "SMTPException" rfl rfl rfl
  refine ⟨h.1, ?_, ?_, ?_⟩
  · rw [h.1]
  · rw [h.1]
    decide
  · rw [h.1]
    decide

/-- C9: the import command accepts negative reminder offsets: a row with
offset -60 imports successfully and yields a reminder scheduled strictly
after the due timestamp. -/
theorem negative_offset_accepted :
    (importDeadlines 1 [⟨"Tax return", "", "2024-01-10 09:00", "-60", ""⟩]).ok = true ∧
    (importDeadlines 1 [⟨"Tax return", "", "2024-01-10 09:00", "-60", ""⟩]).created = 1 ∧
    (importDeadlines 1 [⟨"Tax return", "", "2024-01-10 09:00", "-60", ""⟩]).newReminders =
      [{ id := 0, eventId := 1, channel := "email",
         send_at := minutesOfDate 2024 1 10 9 0 + 60, is_sent := false, sent_at := none }] ∧
    minutesOfDate 2024 1 10 9 0 < minutesOfDate 2024 1 10 9 0 + 60 := by
  refine ⟨rfl, rfl, ?_, by decide⟩
  show (importDeadlines 1 [⟨"Tax return", "", "2024-01-10 09:00", "-60", ""⟩]).newReminders = _
  decide

/-- C6 is false as stated: with 201 sendable reminders simultaneously due
(none becoming due in between), the first invocation sends 200 and the
second invocation sends one more, not zero. -/
theorem dispatch_second_run_sends_again :
    (send_due_reminders okTransport 0 cexStore).sent_count = 200 ∧
    (send_due_reminders okTransport 0
        (send_due_reminders okTransport 0 cexStore).store).sent_count ≠ 0 := by
  exact ⟨by decide, by decide⟩

/-- C6 (amended): dispatch is idempotent per reminder provided the first
invocation's batch covered the whole backlog: if at most 200 reminders were
due and unsent, the first invocation finished without transport error, and
no reminder becomes due between the two invocations, then the second
invocation selects none of the reminders the first one sent, sends nothing
and changes nothing. -/
theorem dispatch_idempotent_when_under_cap (t : Transport) (now now2 : Int) (s : Store)
    (hcap : (dueUnsent now s.reminders).length ≤ BATCH_CAP)
    (herr : (send_due_reminders t now s).error = none)
    (hnonew : ∀ r ∈ s.reminders, r.send_at ≤ now2 → r.send_at ≤ now) :
    send_due_reminders t now2 (send_due_reminders t now s).store =
      ⟨(send_due_reminders t now s).store, 0, none⟩ := by
  unfold send_due_reminders at herr ⊢
  apply runBatch_all_skipped
  intro r2 hr2
  rcases mem_dueUnsent.1 (scanDue_subset_dueUnsent hr2) with ⟨hmem, hunsent, hdue2⟩
  obtain ⟨a, ha, hrel⟩ :=
    forall₂_mem_right (runBatch_forall₂ t now s 0 (scanDue now s.reminders)) hmem
  have hra : r2 = a := stepRel_of_unsent hrel hunsent
  have ha2 : r2 ∈ s.reminders := by rw [hra]; exact ha
  have hduenow : r2 ∈ dueUnsent now s.reminders :=
    mem_dueUnsent.2 ⟨ha2, hunsent, hnonew r2 ha2 hdue2⟩
  have hsel : r2 ∈ scanDue now s.reminders := by
    rw [scanDue_full now s.reminders hcap]
    exact mem_sortBySendAt.2 hduenow
  rcases runBatch_covers t now s 0 (scanDue now s.reminders) herr r2 hsel with he | hm
  · rw [runBatch_emailOf]
    exact he
  · exact absurd (hm r2 hmem rfl).1 (by simp [hunsent])

/-- C6 witness for the amended claim: two due reminders (one sendable, one
with no owner address); the first run sends one, the second run at a later
time sends zero and changes nothing. -/
theorem dispatch_idempotent_witness :
    (dueUnsent 0 sW6.reminders).length ≤ BATCH_CAP ∧
    (send_due_reminders okTransport 0 sW6).error = none ∧
    (send_due_reminders okTransport 0 sW6).sent_count = 1 ∧
    send_due_reminders okTransport 5 (send_due_reminders okTransport 0 sW6).store =
      ⟨(send_due_reminders okTransport 0 sW6).store, 0, none⟩ := by
  refine ⟨by decide, by decide, by decide, ?_⟩
  exact dispatch_idempotent_when_under_cap okTransport 0 5 sW6 (by decide) (by decide)
    (by decide)

/-- C10: the 200 cap bounds the reminders examined per invocation, so the
sends are at most 200; in a scenario where the earliest due reminder has no
owner address and 201 sendable reminders are due, the skipped one occupies a
slot: only 199 emails go out and the two sendable reminders beyond the
batch stay due and unsent for a later invocation. -/
theorem cap_bounds_examined_not_sent :
    (∀ t : Transport, ∀ now : Int, ∀ s : Store,
      (send_due_reminders t now s).sent_count ≤ BATCH_CAP) ∧
    ((capStore.reminders.filter fun r =>
        decide (emailOf capStore r ≠ "" ∧ r.is_sent = false ∧ r.send_at ≤ 0)).length = 201) ∧
    ((send_due_reminders okTransport 0 capStore).sent_count = 199) ∧
    (((send_due_reminders okTransport 0 capStore).store.reminders.filter fun r =>
        decide (emailOf capStore r ≠ "" ∧ r.is_sent = false ∧ r.send_at ≤ 0)).length = 2) := by
  refine ⟨?_, by decide, by decide, by decide⟩
  intro t now s
  have h1 := runBatch_count_le t now s 0 (scanDue now s.reminders)
  have h2 := scanDue_length_le now s.reminders
  unfold send_due_reminders
  omega

end DeadlineTracker
